import Mathlib

/-!
Verification development for the pouch image manager core
(`daemon/mgr/image.go`): reference resolution (`CheckReference`),
pull/remove/get orchestration, and the local reference store.

The orchestration code (`ImageManager` methods and
`storeImageReference`) is translated directly from the source.  The
collaborators that live outside this file's source — the reference
grammar (`pkg/reference`), the local reference store (`imageStore`) and
the package-level helpers `addDefaultRegistryIfMissing` and
`uniqueLocatorReference` — are modelled from the specification's
contracts for them.

Backends (containerd client calls) are modelled as oracle functions
passed in as parameters; every operation additionally returns the list
of reference strings it handed to the backend, so that frame claims
("the backend receives no remove call") are statable.
-/

/-- Content digest: an immutable content-derived identifier, kept as its
string form. -/
abbrev Digest := String

/-- Modelled from the spec: the Reference Grammar's reference variants
(`pkg/reference`, not under the translated source): a bare repository
path (which also covers bare/short IDs after parsing), a tagged name, a
digest-qualified name, and a name carrying both a tag and a digest (so
that dropping the tag in favour of the digest is expressible). -/
inductive Reference where
  | nameOnly (locator : String)
  | tagged (locator tag : String)
  | canonicalDigested (locator dig : String)
  | taggedDigested (locator tag dig : String)
deriving DecidableEq

/-- Canonical string form of a reference, used as the store's lookup
key. -/
def Reference.toString : Reference → String
  | .nameOnly l => l
  | .tagged l t => l ++ ":" ++ t
  | .canonicalDigested l d => l ++ "@" ++ d
  | .taggedDigested l t d => l ++ ":" ++ t ++ "@" ++ d

/-- The registry+namespace+repository portion of a reference, excluding
tag and digest. -/
def Reference.locator : Reference → String
  | .nameOnly l => l
  | .tagged l _ => l
  | .canonicalDigested l _ => l
  | .taggedDigested l _ _ => l

/-- Modelled from the spec: `reference.IsNamedOnly` — true exactly for a
bare repository path / bare ID with neither tag nor digest. -/
def Reference.IsNamedOnly : Reference → Bool
  | .nameOnly _ => true
  | _ => false

/-- Modelled from the spec: `reference.IsNameTagged` — true exactly for a
`repo:tag` name with no digest. -/
def Reference.IsNameTagged : Reference → Bool
  | .tagged _ _ => true
  | _ => false

/-- Modelled from the spec: `reference.TrimTagForDigest` drops the tag
when a digest binding is present; otherwise the reference is
unchanged. -/
def Reference.TrimTagForDigest : Reference → Reference
  | .taggedDigested l _ d => .canonicalDigested l d
  | r => r

/-- Modelled from the spec: `reference.WithDefaultTagIfMissing` injects
the default tag when the reference carries neither tag nor digest. -/
def Reference.WithDefaultTagIfMissing : Reference → Reference
  | .nameOnly l => .tagged l "latest"
  | r => r

/-- Modelled from the spec: `reference.WithDigest` builds the
digest-qualified name `repo@digest` for a reference. -/
def Reference.WithDigest (r : Reference) (d : Digest) : Reference :=
  .canonicalDigested r.locator d

/-- First split of a character list at a separator character: the parts
strictly before and after the first occurrence, if any. -/
def splitFirst (c : Char) : List Char → Option (List Char × List Char)
  | [] => none
  | x :: xs =>
    if x = c then some ([], xs)
    else
      match splitFirst c xs with
      | some (a, b) => some (x :: a, b)
      | none => none

/-- Split of a character list at the last occurrence of a separator
character. -/
def splitLast (c : Char) (l : List Char) : Option (List Char × List Char) :=
  match splitFirst c l.reverse with
  | none => none
  | some (a, b) => some (b.reverse, a.reverse)

/-- Error taxonomy of the image core: NotFound, reference-collision
Conflict, must-force Conflict, invalid reference, and pass-through
backend failures (tagged with an opaque code so that "returned verbatim"
is meaningful). -/
inductive ImgErr where
  | notFound
  | conflict
  | mustForce
  | invalidRef
  | backendFailure (code : Nat)
deriving DecidableEq

/-- Modelled from the spec: the name part of a reference (everything
before any digest separator) is split into a locator and an optional
tag at the last colon, provided the part after that colon contains no
slash (a colon inside a `host:port/...` locator is not a tag
separator).  Empty pieces are parse errors. -/
def parseNamePart (l : List Char) : Except ImgErr (String × Option String) :=
  if l = [] then .error .invalidRef
  else
    match splitLast ':' l with
    | none => .ok (String.mk l, none)
    | some (bef, aft) =>
      if aft.any (fun ch => ch = '/') then .ok (String.mk l, none)
      else if bef = [] ∨ aft = [] then .error .invalidRef
      else .ok (String.mk bef, some (String.mk aft))

/-- Modelled from the spec: the Reference Grammar's `Parse`. The input
splits at the first `@` into a name part and a digest part; the name
part yields the locator and optional tag. -/
def Parse (s : String) : Except ImgErr Reference :=
  let l := s.toList
  if l = [] then .error .invalidRef
  else
    match splitFirst '@' l with
    | none =>
      match parseNamePart l with
      | .error e => .error e
      | .ok (loc, none) => .ok (.nameOnly loc)
      | .ok (loc, some t) => .ok (.tagged loc t)
    | some (namePart, digPart) =>
      if namePart = [] ∨ digPart = [] then .error .invalidRef
      else
        match parseNamePart namePart with
        | .error e => .error e
        | .ok (loc, none) => .ok (.canonicalDigested loc (String.mk digPart))
        | .ok (loc, some t) => .ok (.taggedDigested loc t (String.mk digPart))

/-- Modelled from the spec: `addDefaultRegistryIfMissing` — when the
user does not specify an image repo in the image name, the daemon
completes it with the default registry and namespace.  A name with no
slash gets both registry and namespace; a name whose first path segment
is not a registry host (contains no dot) gets the registry only;
anything else is already fully qualified and is returned unchanged. -/
def addDefaultRegistryIfMissing (ref registry ns : String) : String :=
  let l := ref.toList
  if ¬ l.any (fun ch => ch = '/') then registry ++ "/" ++ ns ++ "/" ++ ref
  else if ¬ (l.takeWhile (fun ch => ch ≠ '/')).any (fun ch => ch = '.') then
    registry ++ "/" ++ ref
  else ref

/-- Role of a reference record in the store: the name an image was
pulled/registered under, or a derived searchable alias. -/
inductive Role where
  | primary
  | alias
deriving DecidableEq

/-- Modelled from the spec: one record of the local reference store —
an association of a content digest with a reference and its role.
`owner` is the string form of the primary reference the record was
registered under (`AddReference`'s signature ties every searchable
reference to a primary one); for a primary record it is the record's
own string.  Removing a primary reference drops the alias records
registered under it, matching the spec's "aliases are implicitly
dropped". -/
structure Record where
  dig : Digest
  ref : Reference
  role : Role
  owner : String
deriving DecidableEq

/-- Leading-segment test on character lists (used for short-ID matching). -/
def listIsPre : List Char → List Char → Bool
  | [], _ => true
  | _ :: _, [] => false
  | x :: xs, y :: ys => x = y && listIsPre xs ys

/-- Digest looked up by exact reference string, if any. -/
def imageStore.lookupRef (store : List Record) (s : String) : Option Digest :=
  (store.find? fun r => decide (r.ref.toString = s)).map fun r => r.dig

/-- Modelled from the spec: `Search` — exact-match lookup by the
reference's canonical string form; a bare name additionally matches by
digest identity (bare/short ID) when it is a prefix of exactly one
stored digest.  Fails with NotFound if absent.  The matched reference
returned is the query itself. -/
def imageStore.Search (store : List Record) (q : Reference) :
    Except ImgErr (Digest × Reference) :=
  match store.find? (fun r => decide (r.ref.toString = q.toString)) with
  | some r => .ok (r.dig, q)
  | none =>
    match q with
    | .nameOnly loc =>
      match ((store.map fun r => r.dig).dedup.filter
          fun d => listIsPre loc.toList d.toList) with
      | [d] => .ok (d, q)
      | _ => .error .notFound
    | _ => .error .notFound

/-- Modelled from the spec: `GetReferences` — all records (primary and
alias) for a digest, in insertion order. -/
def imageStore.GetReferences (store : List Record) (d : Digest) : List Reference :=
  (store.filter fun r => decide (r.dig = d)).map fun r => r.ref

/-- Modelled from the spec: `GetPrimaryReferences` — all primary records
for a digest, in insertion order. -/
def imageStore.GetPrimaryReferences (store : List Record) (d : Digest) : List Reference :=
  (store.filter fun r => decide (r.dig = d ∧ r.role = Role.primary)).map fun r => r.ref

/-- Modelled from the spec: `GetPrimaryReference` — given any matched
reference, one primary record sharing its digest; NotFound when the
digest has none. -/
def imageStore.GetPrimaryReference (store : List Record) (ref : Reference) :
    Except ImgErr Reference :=
  match store.find? (fun r => decide (r.ref.toString = ref.toString)) with
  | none => .error .notFound
  | some r =>
    match imageStore.GetPrimaryReferences store r.dig with
    | [] => .error .notFound
    | p :: _ => .ok p

/-- Second half of `AddReference`: register the searchable reference for
the digest on a store that already holds the primary record.  A
searchable reference equal to the primary needs no extra work; one
already bound to the same digest is a no-op; one bound to a different
digest is a Conflict; otherwise it is inserted as an alias owned by the
primary. -/
def imageStore.addSearchable (st : List Record) (dig : Digest) (p s : Reference) :
    Except ImgErr (List Record) :=
  if p.toString = s.toString then .ok st
  else
    match imageStore.lookupRef st s.toString with
    | some d => if d = dig then .ok st else .error .conflict
    | none => .ok (st ++ [⟨dig, s, .alias, p.toString⟩])

/-- Modelled from the spec: `AddReference(digest, primaryRef,
searchableRef)` — ensure the primary reference is registered as primary
for the digest (no-op when already present with the same digest,
Conflict when bound to a different digest), then register the
searchable reference. -/
def imageStore.AddReference (store : List Record) (dig : Digest) (p s : Reference) :
    Except ImgErr (List Record) :=
  match imageStore.lookupRef store p.toString with
  | some d =>
    if d = dig then imageStore.addSearchable store dig p s
    else .error .conflict
  | none =>
    imageStore.addSearchable (store ++ [⟨dig, p, .primary, p.toString⟩]) dig p s

/-- Modelled from the spec: `RemoveReference(digest, ref)` — delete the
record whose reference string matches, together with the alias records
registered under it when it is a primary reference (the spec's
"aliases are implicitly dropped"); the digest is purged implicitly once
its record set is empty.  The operation never fails. -/
def imageStore.RemoveReference (store : List Record) (dig : Digest) (ref : Reference) :
    List Record :=
  store.filter fun r =>
    decide (¬ (r.dig = dig ∧ (r.ref.toString = ref.toString ∨ r.owner = ref.toString)))

/-- Modelled from the spec: `uniqueLocatorReference` — whether every
reference of the list shares one locator. -/
def uniqueLocatorReference (refs : List Reference) : Bool :=
  match refs with
  | [] => true
  | r :: rest => rest.all fun x => decide (x.locator = r.locator)

/-- A containerd image handle, reduced to what the orchestration code
reads from it: its canonical pull name, the config descriptor digest
(the image ID) and the target manifest digest. -/
structure CtrdImage where
  name : String
  configDigest : Digest
  targetDigest : Digest
deriving DecidableEq

/-- The image manager: default registry/namespace configuration plus the
local reference store.  The containerd client is supplied per
operation as an oracle function. -/
structure ImageManager where
  DefaultRegistry : String
  DefaultNamespace : String
  localStore : List Record
deriving DecidableEq

/-- Primary-reference determination of `CheckReference` (the tail of the
source function): a name-only match takes the first primary reference
of the digest, an empty list surfacing as NotFound; any other match
goes through `GetPrimaryReference`. -/
def resolvePrimaryRef (store : List Record) (actualID : Digest) (actualRef : Reference) :
    Except ImgErr (Digest × Reference × Reference) :=
  if actualRef.IsNamedOnly then
    match imageStore.GetPrimaryReferences store actualID with
    | [] => .error .notFound
    | p :: _ => .ok (actualID, actualRef, p)
  else
    match imageStore.GetPrimaryReference store actualRef with
    | .error e => .error e
    | .ok p => .ok (actualID, actualRef, p)

/-- `ImageManager.CheckReference`: parse the input, search the store
with the parsed reference as-is; on NotFound, inject the default
registry/namespace and, only when that changes the string, re-parse and
search once more; then determine the primary reference.  The function
only reads the store. -/
def ImageManager.CheckReference (mgr : ImageManager) (idOrRef : String) :
    Except ImgErr (Digest × Reference × Reference) :=
  match Parse idOrRef with
  | .error e => .error e
  | .ok namedRef =>
    match imageStore.Search mgr.localStore namedRef with
    | .ok (actualID, actualRef) => resolvePrimaryRef mgr.localStore actualID actualRef
    | .error e =>
      if e ≠ ImgErr.notFound then .error e
      else
        let newIDOrRef :=
          addDefaultRegistryIfMissing idOrRef mgr.DefaultRegistry mgr.DefaultNamespace
        if newIDOrRef = idOrRef then .error e
        else
          match Parse newIDOrRef with
          | .error e2 => .error e2
          | .ok namedRef2 =>
            match imageStore.Search mgr.localStore namedRef2 with
            | .error e2 => .error e2
            | .ok (actualID, actualRef) =>
              resolvePrimaryRef mgr.localStore actualID actualRef

/-- `ImageManager.GetImage`: resolve the input and fetch the image from
the backend under the *primary* reference's string form.  The backend
is an oracle; the second component records the queries issued to it.
The projection to the public image-info structure is not modelled. -/
def ImageManager.GetImage (mgr : ImageManager)
    (backendGet : String → Except ImgErr CtrdImage) (idOrRef : String) :
    Except ImgErr CtrdImage × List String :=
  match mgr.CheckReference idOrRef with
  | .error e => (.error e, [])
  | .ok (_, _, ref) =>
    match backendGet ref.toString with
    | .error e => (.error e, [ref.toString])
    | .ok img => (.ok img, [ref.toString])

/-- `storeImageReference`: register a pulled image's canonical name as
primary and searchable; when the canonical name is tagged, additionally
register the digest-qualified name as a searchable alias, but only when
a store search for that exact name fails with NotFound. -/
def storeImageReference (store : List Record) (img : CtrdImage) :
    Except ImgErr (List Record) :=
  match Parse img.name with
  | .error e => .error e
  | .ok namedRef =>
    match imageStore.AddReference store img.configDigest namedRef namedRef with
    | .error e => .error e
    | .ok store1 =>
      if namedRef.IsNameTagged then
        match imageStore.Search store1 (namedRef.WithDigest img.targetDigest) with
        | .error e =>
          if e = ImgErr.notFound then
            imageStore.AddReference store1 img.configDigest namedRef
              (namedRef.WithDigest img.targetDigest)
          else .ok store1
        | .ok _ => .ok store1
      else .ok store1

/-- `ImageManager.PullImage`: normalize the input (default
registry/namespace, then default tag when neither tag nor digest is
present, then drop the tag when a digest is present), invoke the
backend pull with the normalized string, and register the resulting
image into the store only after backend success.  Returns the result,
the store afterwards, and the backend queries issued.  The progress
stream and its drain goroutine are concurrency plumbing and are not
modelled. -/
def ImageManager.PullImage (mgr : ImageManager)
    (backendPull : String → Except ImgErr CtrdImage) (ref : String) :
    Except ImgErr Unit × List Record × List String :=
  let newRef := addDefaultRegistryIfMissing ref mgr.DefaultRegistry mgr.DefaultNamespace
  match Parse newRef with
  | .error e => (.error e, mgr.localStore, [])
  | .ok namedRef =>
    let namedRef2 := namedRef.WithDefaultTagIfMissing.TrimTagForDigest
    match backendPull namedRef2.toString with
    | .error e => (.error e, mgr.localStore, [namedRef2.toString])
    | .ok img =>
      match storeImageReference mgr.localStore img with
      | .error e => (.error e, mgr.localStore, [namedRef2.toString])
      | .ok st => (.ok (), st, [namedRef2.toString])

/-- The name-only removal loop of `RemoveImage`: for each primary
reference in turn, first instruct the backend to remove it, then remove
it from the store; a backend failure stops the loop and is returned,
with earlier iterations already applied. -/
def removePrimaryRefs (backendRemove : String → Except ImgErr Unit) (id : Digest) :
    List Reference → List Record → List String →
    Except ImgErr Unit × List Record × List String
  | [], store, calls => (.ok (), store, calls)
  | r :: rs, store, calls =>
    match backendRemove r.toString with
    | .error e => (.error e, store, calls ++ [r.toString])
    | .ok _ =>
      removePrimaryRefs backendRemove id rs
        (imageStore.RemoveReference store id r) (calls ++ [r.toString])

/-- `ImageManager.RemoveImage`: resolve the input; a name-only match
removes every primary reference (after the must-force locator check
unless forced); otherwise the tag is trimmed when a digest binding is
present and either the primary record is removed from the store and
then the backend (primary case), or only the store's record is removed
(alias case).  Returns result, store afterwards, and backend remove
queries. -/
def ImageManager.RemoveImage (mgr : ImageManager)
    (backendRemove : String → Except ImgErr Unit) (idOrRef : String) (force : Bool) :
    Except ImgErr Unit × List Record × List String :=
  match mgr.CheckReference idOrRef with
  | .error e => (.error e, mgr.localStore, [])
  | .ok (id, namedRef, primaryRef) =>
    if namedRef.IsNamedOnly then
      if !force && !(uniqueLocatorReference (imageStore.GetReferences mgr.localStore id)) then
        (.error .mustForce, mgr.localStore, [])
      else
        removePrimaryRefs backendRemove id
          (imageStore.GetPrimaryReferences mgr.localStore id) mgr.localStore []
    else
      let namedRef2 := namedRef.TrimTagForDigest
      if primaryRef.toString = namedRef2.toString then
        let store2 := imageStore.RemoveReference mgr.localStore id primaryRef
        match backendRemove primaryRef.toString with
        | .error e => (.error e, store2, [primaryRef.toString])
        | .ok _ => (.ok (), store2, [primaryRef.toString])
      else
        (.ok (), imageStore.RemoveReference mgr.localStore id namedRef2, [])

deriving instance DecidableEq for Except

/-- Fixture: a store holding one primary tagged reference. -/
def storeOnePrimary : List Record :=
  [⟨"d1", .tagged "busybox" "1.25", .primary, "busybox:1.25"⟩]

/-- Fixture: a manager over `storeOnePrimary`. -/
def mgrOnePrimary : ImageManager := ⟨"reg", "ns", storeOnePrimary⟩

/-- Fixture: one digest with two primary references under different
locators. -/
def storeTwoPrimaries : List Record :=
  [⟨"deadbeef", .tagged "busybox" "1.25", .primary, "busybox:1.25"⟩,
   ⟨"deadbeef", .tagged "localhost:5000/busybox" "latest", .primary,
     "localhost:5000/busybox:latest"⟩]

/-- Fixture: a manager over `storeTwoPrimaries`. -/
def mgrTwoPrimaries : ImageManager := ⟨"reg", "ns", storeTwoPrimaries⟩

/-- Fixture: one digest with a primary tag and a non-primary digest
alias. -/
def storeWithAlias : List Record :=
  [⟨"d1", .tagged "busybox" "1.25", .primary, "busybox:1.25"⟩,
   ⟨"d1", .canonicalDigested "busybox" "sha256:0011", .alias, "busybox:1.25"⟩]

/-- Fixture: a manager over `storeWithAlias`. -/
def mgrWithAlias : ImageManager := ⟨"reg", "ns", storeWithAlias⟩

/-- Fixture: a manager with an empty store. -/
def mgrEmptyStore : ImageManager := ⟨"reg", "ns", []⟩

/-- Fixture: a containerd image handle with a tagged canonical name. -/
def imgBusybox : CtrdImage := ⟨"busybox:1.25", "d1", "sha256:0011"⟩

/-- Fixture: a backend whose remove always fails with code 7. -/
def backendRemoveFail : String → Except ImgErr Unit := fun _ => .error (.backendFailure 7)

/-- Fixture: a backend whose remove always succeeds. -/
def backendRemoveOk : String → Except ImgErr Unit := fun _ => .ok ()

/-- Fixture: a backend whose pull always fails with code 3. -/
def backendPullFail : String → Except ImgErr CtrdImage := fun _ => .error (.backendFailure 3)

/-- Fixture: a backend whose pull returns an image named after the
query. -/
def backendPullBusybox : String → Except ImgErr CtrdImage :=
  fun s => .ok ⟨s, "d1", "sha256:0011"⟩

/-- Fixture: a backend whose get returns an image named after the
query. -/
def backendGetOk : String → Except ImgErr CtrdImage :=
  fun s => .ok ⟨s, "d1", "sha256:0011"⟩

/-- A list of references whose locators are not all equal is not
locator-unique. -/
theorem uniqueLocator_eq_false_of_two (refs : List Reference) (a b : Reference)
    (ha : a ∈ refs) (hb : b ∈ refs) (hne : a.locator ≠ b.locator) :
    uniqueLocatorReference refs = false := by
  cases refs with
  | nil => cases ha
  | cons r rest =>
    by_contra hcon
    rw [Bool.not_eq_false] at hcon
    unfold uniqueLocatorReference at hcon
    rw [List.all_eq_true] at hcon
    have key : ∀ x ∈ r :: rest, x.locator = r.locator := by
      intro x hx
      rcases List.mem_cons.mp hx with hx' | hx'
      · rw [hx']
      · exact of_decide_eq_true (hcon x hx')
    exact hne ((key a ha).trans (key b hb).symm)

/-- When the backend removal succeeds on every listed reference and
every record of the digest is owned by one of the listed references,
the removal loop succeeds, issues exactly one backend call per listed
reference in order, and leaves no record of the digest behind. -/
theorem removePrimaryRefs_all_ok (backendRemove : String → Except ImgErr Unit)
    (id : Digest) (ps : List Reference) :
    ∀ (store : List Record) (calls : List String),
      (∀ p ∈ ps, backendRemove p.toString = .ok ()) →
      (∀ r ∈ store, r.dig = id → r.owner ∈ ps.map Reference.toString) →
      (removePrimaryRefs backendRemove id ps store calls).1 = .ok () ∧
      (removePrimaryRefs backendRemove id ps store calls).2.2
          = calls ++ ps.map Reference.toString ∧
      ∀ r ∈ (removePrimaryRefs backendRemove id ps store calls).2.1, r.dig ≠ id := by
  induction ps with
  | nil =>
    intro store calls _ hown
    refine ⟨rfl, by simp [removePrimaryRefs], ?_⟩
    intro r hr hd
    have h := hown r hr hd
    simp at h
  | cons p ps ih =>
    intro store calls hok hown
    have hbp : backendRemove p.toString = .ok () := hok p (List.mem_cons_self p ps)
    unfold removePrimaryRefs
    rw [hbp]
    have hown' : ∀ r ∈ imageStore.RemoveReference store id p, r.dig = id →
        r.owner ∈ ps.map Reference.toString := by
      intro r hr hd
      unfold imageStore.RemoveReference at hr
      rw [List.mem_filter] at hr
      have hnp := of_decide_eq_true hr.2
      rcases List.mem_cons.mp (hown r hr.1 hd) with h1 | h1
      · exact absurd ⟨hd, Or.inr h1⟩ hnp
      · exact h1
    have h := ih (imageStore.RemoveReference store id p) (calls ++ [p.toString])
      (fun q hq => hok q (List.mem_cons_of_mem p hq)) hown'
    refine ⟨h.1, ?_, h.2.2⟩
    rw [h.2.1]
    simp

/-- C1 (counterexample): removing an image by its primary tagged name
with a failing backend returns the backend error, yet the primary
record is no longer in the store — the store mutation precedes the
backend call, so a failed backend removal is not atomic. -/
theorem removeImage_primary_not_atomic_cex :
    (mgrOnePrimary.RemoveImage backendRemoveFail "busybox:1.25" false).1
        = .error (.backendFailure 7) ∧
    (⟨"d1", .tagged "busybox" "1.25", .primary, "busybox:1.25"⟩ : Record) ∉
      (mgrOnePrimary.RemoveImage backendRemoveFail "busybox:1.25" false).2.1 :=
  ⟨rfl, by decide⟩

/-- C1 (amended): for a removal resolving to a tagged or
canonical-digested name equal to the digest's primary reference, the
primary record is removed from the store before the backend call; if
the backend removal then fails, the error is returned verbatim while
the store already lacks the record. -/
theorem removeImage_primary_removed_before_backend (mgr : ImageManager)
    (backendRemove : String → Except ImgErr Unit) (idOrRef : String) (force : Bool)
    (id : Digest) (nr pr : Reference) (e : ImgErr)
    (hcheck : mgr.CheckReference idOrRef = .ok (id, nr, pr))
    (hnamed : nr.IsNamedOnly = false)
    (heq : pr.toString = nr.TrimTagForDigest.toString)
    (hb : backendRemove pr.toString = .error e) :
    mgr.RemoveImage backendRemove idOrRef force =
      (.error e, imageStore.RemoveReference mgr.localStore id pr, [pr.toString]) := by
  unfold ImageManager.RemoveImage
  rw [hcheck]
  dsimp only
  rw [hnamed]
  simp only [Bool.false_eq_true, if_false]
  rw [if_pos heq, hb]

/-- Witness for C1's amended theorem at a concrete input. -/
theorem removeImage_primary_removed_before_backend_witness :
    mgrOnePrimary.CheckReference "busybox:1.25"
        = .ok ("d1", .tagged "busybox" "1.25", .tagged "busybox" "1.25") ∧
    backendRemoveFail "busybox:1.25" = .error (.backendFailure 7) ∧
    mgrOnePrimary.RemoveImage backendRemoveFail "busybox:1.25" false =
      (.error (.backendFailure 7),
        imageStore.RemoveReference mgrOnePrimary.localStore "d1"
          (.tagged "busybox" "1.25"),
        ["busybox:1.25"]) :=
  ⟨rfl, rfl,
    removeImage_primary_removed_before_backend mgrOnePrimary backendRemoveFail
      "busybox:1.25" false "d1" (.tagged "busybox" "1.25") (.tagged "busybox" "1.25")
      (.backendFailure 7) rfl rfl rfl rfl⟩

/-- C3: a name-only (bare/short ID) removal without force whose digest
has records under more than one locator fails with the must-force
conflict, leaves the store unchanged and issues no backend call. -/
theorem removeImage_must_force_conflict (mgr : ImageManager)
    (backendRemove : String → Except ImgErr Unit) (idOrRef : String)
    (id : Digest) (nr pr a b : Reference)
    (hcheck : mgr.CheckReference idOrRef = .ok (id, nr, pr))
    (hnamed : nr.IsNamedOnly = true)
    (ha : a ∈ imageStore.GetReferences mgr.localStore id)
    (hb : b ∈ imageStore.GetReferences mgr.localStore id)
    (hne : a.locator ≠ b.locator) :
    mgr.RemoveImage backendRemove idOrRef false =
      (.error .mustForce, mgr.localStore, []) := by
  have hu := uniqueLocator_eq_false_of_two _ a b ha hb hne
  unfold ImageManager.RemoveImage
  rw [hcheck]
  dsimp only
  rw [hnamed, hu]
  simp

/-- Witness for C3 at the spec's scenario: a short ID whose digest has
primary references under `busybox` and `localhost:5000/busybox`. -/
theorem removeImage_must_force_conflict_witness :
    mgrTwoPrimaries.CheckReference "dead"
        = .ok ("deadbeef", .nameOnly "dead", .tagged "busybox" "1.25") ∧
    (Reference.tagged "busybox" "1.25")
        ∈ imageStore.GetReferences mgrTwoPrimaries.localStore "deadbeef" ∧
    (Reference.tagged "localhost:5000/busybox" "latest")
        ∈ imageStore.GetReferences mgrTwoPrimaries.localStore "deadbeef" ∧
    mgrTwoPrimaries.RemoveImage backendRemoveOk "dead" false =
      (.error .mustForce, mgrTwoPrimaries.localStore, []) :=
  ⟨rfl, by decide, by decide,
    removeImage_must_force_conflict mgrTwoPrimaries backendRemoveOk "dead"
      "deadbeef" (.nameOnly "dead") (.tagged "busybox" "1.25")
      (.tagged "busybox" "1.25") (.tagged "localhost:5000/busybox" "latest")
      rfl rfl (by decide) (by decide) (by decide)⟩

/-- C4: a name-only removal that passes the locator check (or is
forced), with a backend that removes every primary reference
successfully, succeeds, issues one backend remove per primary reference
of the digest in order (each before its store removal), and leaves no
record of the digest in the store.  The ownership hypothesis states the
store invariant that every record of the digest is registered under one
of its primary references. -/
theorem removeImage_named_only_removes_all (mgr : ImageManager)
    (backendRemove : String → Except ImgErr Unit) (idOrRef : String) (force : Bool)
    (id : Digest) (nr pr : Reference)
    (hcheck : mgr.CheckReference idOrRef = .ok (id, nr, pr))
    (hnamed : nr.IsNamedOnly = true)
    (hforce : force = true ∨
      uniqueLocatorReference (imageStore.GetReferences mgr.localStore id) = true)
    (hok : ∀ p ∈ imageStore.GetPrimaryReferences mgr.localStore id,
      backendRemove p.toString = .ok ())
    (hown : ∀ r ∈ mgr.localStore, r.dig = id →
      r.owner ∈ (imageStore.GetPrimaryReferences mgr.localStore id).map Reference.toString) :
    (mgr.RemoveImage backendRemove idOrRef force).1 = .ok () ∧
    (mgr.RemoveImage backendRemove idOrRef force).2.2
        = (imageStore.GetPrimaryReferences mgr.localStore id).map Reference.toString ∧
    ∀ r ∈ (mgr.RemoveImage backendRemove idOrRef force).2.1, r.dig ≠ id := by
  have hred : mgr.RemoveImage backendRemove idOrRef force =
      removePrimaryRefs backendRemove id
        (imageStore.GetPrimaryReferences mgr.localStore id) mgr.localStore [] := by
    unfold ImageManager.RemoveImage
    rw [hcheck]
    dsimp only
    rw [hnamed]
    rcases hforce with hf | hu
    · rw [hf]; simp
    · rw [hu]; simp
  have h := removePrimaryRefs_all_ok backendRemove id
    (imageStore.GetPrimaryReferences mgr.localStore id) mgr.localStore [] hok hown
  rw [hred]
  simpa using h

/-- Witness for C4 at the spec's scenario: the two-locator digest is
removed with force; both primary references are removed from the
backend, in order, and the digest is gone from the store. -/
theorem removeImage_named_only_removes_all_witness :
    mgrTwoPrimaries.CheckReference "dead"
        = .ok ("deadbeef", .nameOnly "dead", .tagged "busybox" "1.25") ∧
    (mgrTwoPrimaries.RemoveImage backendRemoveOk "dead" true).1 = .ok () ∧
    (mgrTwoPrimaries.RemoveImage backendRemoveOk "dead" true).2.2
        = ["busybox:1.25", "localhost:5000/busybox:latest"] ∧
    ∀ r ∈ (mgrTwoPrimaries.RemoveImage backendRemoveOk "dead" true).2.1,
      r.dig ≠ "deadbeef" :=
  have h := removeImage_named_only_removes_all mgrTwoPrimaries backendRemoveOk "dead"
    true "deadbeef" (.nameOnly "dead") (.tagged "busybox" "1.25") rfl rfl
    (Or.inl rfl) (fun _ _ => rfl) (by decide)
  ⟨rfl, h.1, h.2.1, h.2.2⟩

/-- C7: a removal resolving to a concrete name that differs (after tag
trimming) from the digest's primary reference removes only the store's
record for that name: the backend receives no remove call and any
primary record of the digest survives in the store. -/
theorem removeImage_alias_removes_only_store_record (mgr : ImageManager)
    (backendRemove : String → Except ImgErr Unit) (idOrRef : String) (force : Bool)
    (id : Digest) (nr pr : Reference)
    (hcheck : mgr.CheckReference idOrRef = .ok (id, nr, pr))
    (hnamed : nr.IsNamedOnly = false)
    (hne : pr.toString ≠ nr.TrimTagForDigest.toString) :
    mgr.RemoveImage backendRemove idOrRef force =
      (.ok (), imageStore.RemoveReference mgr.localStore id nr.TrimTagForDigest, []) ∧
    ∀ r ∈ mgr.localStore, r.ref.toString = pr.toString → r.owner = pr.toString →
      r ∈ (mgr.RemoveImage backendRemove idOrRef force).2.1 := by
  have hmain : mgr.RemoveImage backendRemove idOrRef force =
      (.ok (), imageStore.RemoveReference mgr.localStore id nr.TrimTagForDigest, []) := by
    unfold ImageManager.RemoveImage
    rw [hcheck]
    dsimp only
    rw [hnamed]
    simp only [Bool.false_eq_true, if_false]
    rw [if_neg hne]
  refine ⟨hmain, ?_⟩
  intro r hr h1 h2
  rw [hmain]
  unfold imageStore.RemoveReference
  rw [List.mem_filter]
  refine ⟨hr, decide_eq_true ?_⟩
  intro hand
  rcases hand.2 with h3 | h3
  · exact hne (by rw [← h1]; exact h3)
  · exact hne (by rw [← h2]; exact h3)

/-- Witness for C7 at the spec's scenario: removing the non-primary
digest alias deletes only the alias record; the backend sees no call,
the primary record survives, and the tag still resolves. -/
theorem removeImage_alias_removes_only_store_record_witness :
    mgrWithAlias.CheckReference "busybox@sha256:0011"
        = .ok ("d1", .canonicalDigested "busybox" "sha256:0011",
            .tagged "busybox" "1.25") ∧
    mgrWithAlias.RemoveImage backendRemoveOk "busybox@sha256:0011" false =
      (.ok (),
        imageStore.RemoveReference mgrWithAlias.localStore "d1"
          (Reference.TrimTagForDigest (.canonicalDigested "busybox" "sha256:0011")),
        []) ∧
    (⟨"d1", .tagged "busybox" "1.25", .primary, "busybox:1.25"⟩ : Record)
        ∈ (mgrWithAlias.RemoveImage backendRemoveOk "busybox@sha256:0011" false).2.1 ∧
    imageStore.Search
        (mgrWithAlias.RemoveImage backendRemoveOk "busybox@sha256:0011" false).2.1
        (.tagged "busybox" "1.25")
      = .ok ("d1", .tagged "busybox" "1.25") :=
  have h := removeImage_alias_removes_only_store_record mgrWithAlias backendRemoveOk
    "busybox@sha256:0011" false "d1" (.canonicalDigested "busybox" "sha256:0011")
    (.tagged "busybox" "1.25") rfl rfl (by decide)
  ⟨rfl, h.1,
    h.2 ⟨"d1", .tagged "busybox" "1.25", .primary, "busybox:1.25"⟩ (by decide) rfl rfl,
    by rw [h.1]; rfl⟩

/-- C10: whenever resolution succeeds, the get operation queries the
backend with the primary reference's string form, and with nothing
else. -/
theorem getImage_queries_backend_with_primary (mgr : ImageManager)
    (backendGet : String → Except ImgErr CtrdImage) (idOrRef : String)
    (d : Digest) (mr pr : Reference)
    (hcheck : mgr.CheckReference idOrRef = .ok (d, mr, pr)) :
    (mgr.GetImage backendGet idOrRef).2 = [pr.toString] := by
  unfold ImageManager.GetImage
  rw [hcheck]
  dsimp only
  cases backendGet pr.toString <;> rfl

/-- Witness for C10: an image looked up by its non-primary digest alias
is fetched from the backend under the primary tag, not under the
user-supplied string. -/
theorem getImage_queries_backend_with_primary_witness :
    mgrWithAlias.CheckReference "busybox@sha256:0011"
        = .ok ("d1", .canonicalDigested "busybox" "sha256:0011",
            .tagged "busybox" "1.25") ∧
    (mgrWithAlias.GetImage backendGetOk "busybox@sha256:0011").2 = ["busybox:1.25"] ∧
    "busybox:1.25" ≠ "busybox@sha256:0011" :=
  ⟨rfl,
    getImage_queries_backend_with_primary mgrWithAlias backendGetOk "busybox@sha256:0011"
      "d1" (.canonicalDigested "busybox" "sha256:0011") (.tagged "busybox" "1.25") rfl,
    by decide⟩

/-- C2: resolution searches the store with the parsed input as-is; the
result of a successful first search is decisive.  On NotFound the
default registry/namespace is injected into the input string and, only
when this changes the string, the new string is re-parsed and searched
once more; when the second search also fails, or no substitution
changed the input, NotFound is propagated.  (`CheckReference` is a pure
function of the store: it contains no store-mutating operation.) -/
theorem checkReference_two_pass (mgr : ImageManager) (s : String) (r : Reference)
    (hparse : Parse s = .ok r) :
    (∀ d mr, imageStore.Search mgr.localStore r = .ok (d, mr) →
      mgr.CheckReference s = resolvePrimaryRef mgr.localStore d mr) ∧
    (imageStore.Search mgr.localStore r = .error .notFound →
      (addDefaultRegistryIfMissing s mgr.DefaultRegistry mgr.DefaultNamespace = s →
        mgr.CheckReference s = .error .notFound) ∧
      (∀ r2, addDefaultRegistryIfMissing s mgr.DefaultRegistry mgr.DefaultNamespace ≠ s →
        Parse (addDefaultRegistryIfMissing s mgr.DefaultRegistry mgr.DefaultNamespace)
            = .ok r2 →
        imageStore.Search mgr.localStore r2 = .error .notFound →
        mgr.CheckReference s = .error .notFound)) := by
  constructor
  · intro d mr hs
    unfold ImageManager.CheckReference
    rw [hparse]
    dsimp only
    rw [hs]
  · intro hs
    constructor
    · intro heq
      simp only [ImageManager.CheckReference, hparse, hs]
      simp [heq]
    · intro r2 hne hparse2 hs2
      simp only [ImageManager.CheckReference, hparse, hs]
      simp [hne, hparse2, hs2]

/-- Witness for C2: an unresolvable short name misses the store, is
retried with the default registry and namespace injected, misses again,
and NotFound is propagated. -/
theorem checkReference_two_pass_witness :
    Parse "busybox" = .ok (.nameOnly "busybox") ∧
    imageStore.Search mgrEmptyStore.localStore (.nameOnly "busybox")
        = .error .notFound ∧
    addDefaultRegistryIfMissing "busybox" "reg" "ns" ≠ "busybox" ∧
    imageStore.Search mgrEmptyStore.localStore (.nameOnly "reg/ns/busybox")
        = .error .notFound ∧
    mgrEmptyStore.CheckReference "busybox" = .error .notFound :=
  ⟨rfl, rfl, by decide, rfl,
    ((checkReference_two_pass mgrEmptyStore "busybox" (.nameOnly "busybox") rfl).2
      rfl).2 (.nameOnly "reg/ns/busybox") (by decide) rfl rfl⟩

/-- C6: when the matched reference is name-only, the primary reference
is the first element of the digest's primary references, the empty list
surfacing as NotFound; for a tagged or canonical-digested match the
primary reference comes from `GetPrimaryReference`. -/
theorem checkReference_primary_selection (mgr : ImageManager) (s : String)
    (r : Reference) (d : Digest) (mr : Reference)
    (hparse : Parse s = .ok r)
    (hs : imageStore.Search mgr.localStore r = .ok (d, mr)) :
    (mr.IsNamedOnly = true →
      (imageStore.GetPrimaryReferences mgr.localStore d = [] →
        mgr.CheckReference s = .error .notFound) ∧
      (∀ p ps, imageStore.GetPrimaryReferences mgr.localStore d = p :: ps →
        mgr.CheckReference s = .ok (d, mr, p))) ∧
    (mr.IsNamedOnly = false →
      (∀ e, imageStore.GetPrimaryReference mgr.localStore mr = .error e →
        mgr.CheckReference s = .error e) ∧
      (∀ p, imageStore.GetPrimaryReference mgr.localStore mr = .ok p →
        mgr.CheckReference s = .ok (d, mr, p))) := by
  have hc : mgr.CheckReference s = resolvePrimaryRef mgr.localStore d mr := by
    unfold ImageManager.CheckReference
    rw [hparse]
    dsimp only
    rw [hs]
  constructor
  · intro hno
    constructor
    · intro hnil
      rw [hc]
      unfold resolvePrimaryRef
      rw [hno, hnil]
      simp
    · intro p ps hcons
      rw [hc]
      unfold resolvePrimaryRef
      rw [hno, hcons]
      simp
  · intro hno
    constructor
    · intro e he
      rw [hc]
      unfold resolvePrimaryRef
      rw [hno, he]
      simp
    · intro p hp
      rw [hc]
      unfold resolvePrimaryRef
      rw [hno, hp]
      simp

/-- Witness for C6: a short-ID match picks the first of the digest's two
primary references. -/
theorem checkReference_primary_selection_witness :
    Parse "dead" = .ok (.nameOnly "dead") ∧
    imageStore.Search mgrTwoPrimaries.localStore (.nameOnly "dead")
        = .ok ("deadbeef", .nameOnly "dead") ∧
    imageStore.GetPrimaryReferences mgrTwoPrimaries.localStore "deadbeef"
        = [.tagged "busybox" "1.25", .tagged "localhost:5000/busybox" "latest"] ∧
    mgrTwoPrimaries.CheckReference "dead"
        = .ok ("deadbeef", .nameOnly "dead", .tagged "busybox" "1.25") :=
  ⟨rfl, rfl, rfl,
    ((checkReference_primary_selection mgrTwoPrimaries "dead" (.nameOnly "dead")
        "deadbeef" (.nameOnly "dead") rfl rfl).1 rfl).2
      (.tagged "busybox" "1.25") [.tagged "localhost:5000/busybox" "latest"] rfl⟩

/-- C5: a pull whose reference parse fails, or whose backend pull fails,
returns that error verbatim and leaves the store unchanged; the store
is registered only after backend success. -/
theorem pullImage_fail_atomic (mgr : ImageManager)
    (backendPull : String → Except ImgErr CtrdImage) (ref : String) :
    (∀ e, Parse (addDefaultRegistryIfMissing ref mgr.DefaultRegistry mgr.DefaultNamespace)
        = .error e →
      mgr.PullImage backendPull ref = (.error e, mgr.localStore, [])) ∧
    (∀ r e, Parse (addDefaultRegistryIfMissing ref mgr.DefaultRegistry mgr.DefaultNamespace)
        = .ok r →
      backendPull r.WithDefaultTagIfMissing.TrimTagForDigest.toString = .error e →
      mgr.PullImage backendPull ref =
        (.error e, mgr.localStore,
          [r.WithDefaultTagIfMissing.TrimTagForDigest.toString])) := by
  constructor
  · intro e hp
    simp only [ImageManager.PullImage, hp]
  · intro r e hp hb
    simp only [ImageManager.PullImage, hp, hb]

/-- Witness for C5: a failing backend pull of `busybox` returns the
backend's error with an unchanged (empty) store. -/
theorem pullImage_fail_atomic_witness :
    Parse (addDefaultRegistryIfMissing "busybox" "reg" "ns")
        = .ok (.nameOnly "reg/ns/busybox") ∧
    backendPullFail "reg/ns/busybox:latest" = .error (.backendFailure 3) ∧
    mgrEmptyStore.PullImage backendPullFail "busybox"
        = (.error (.backendFailure 3), mgrEmptyStore.localStore,
            ["reg/ns/busybox:latest"]) :=
  ⟨rfl, rfl,
    (pullImage_fail_atomic mgrEmptyStore backendPullFail "busybox").2
      (.nameOnly "reg/ns/busybox") (.backendFailure 3) rfl rfl⟩

/-- C9: whenever the normalized input parses, the backend pull is
invoked with exactly the normalized reference: default
registry/namespace injected into the string, then the default tag
injected when neither tag nor digest is present, then the tag dropped
when a digest is present. -/
theorem pullImage_backend_gets_normalized (mgr : ImageManager)
    (backendPull : String → Except ImgErr CtrdImage) (ref : String) (r : Reference)
    (hp : Parse (addDefaultRegistryIfMissing ref mgr.DefaultRegistry mgr.DefaultNamespace)
        = .ok r) :
    (mgr.PullImage backendPull ref).2.2
        = [r.WithDefaultTagIfMissing.TrimTagForDigest.toString] := by
  simp only [ImageManager.PullImage, hp]
  cases hb : backendPull r.WithDefaultTagIfMissing.TrimTagForDigest.toString with
  | error e => simp [hb]
  | ok img =>
    cases hst : storeImageReference mgr.localStore img <;> simp [hb, hst]

/-- Witness for C9: a tag-and-digest input gets the default registry
and namespace injected and its tag dropped in favour of the digest
before the backend pull. -/
theorem pullImage_backend_gets_normalized_witness :
    Parse (addDefaultRegistryIfMissing "busybox:1.25@sha256:0011" "reg" "ns")
        = .ok (.taggedDigested "reg/ns/busybox" "1.25" "sha256:0011") ∧
    (mgrEmptyStore.PullImage backendPullBusybox "busybox:1.25@sha256:0011").2.2
        = ["reg/ns/busybox@sha256:0011"] :=
  ⟨rfl,
    pullImage_backend_gets_normalized mgrEmptyStore backendPullBusybox
      "busybox:1.25@sha256:0011"
      (.taggedDigested "reg/ns/busybox" "1.25" "sha256:0011") rfl⟩

/-- A successful exact lookup is stable under appending records. -/
theorem lookupRef_append_some {store : List Record} {s : String} {d : Digest}
    (l2 : List Record) (h : imageStore.lookupRef store s = some d) :
    imageStore.lookupRef (store ++ l2) s = some d := by
  unfold imageStore.lookupRef at h ⊢
  cases hf : store.find? (fun r => decide (r.ref.toString = s)) with
  | none => rw [hf] at h; simp at h
  | some r =>
    rw [hf] at h
    rw [List.find?_append, hf]
    simpa using h

/-- A failed exact lookup defers to the appended records. -/
theorem lookupRef_append_none {store : List Record} {s : String}
    (l2 : List Record) (h : imageStore.lookupRef store s = none) :
    imageStore.lookupRef (store ++ l2) s = imageStore.lookupRef l2 s := by
  unfold imageStore.lookupRef at h ⊢
  cases hf : store.find? (fun r => decide (r.ref.toString = s)) with
  | some r => rw [hf] at h; simp at h
  | none => rw [List.find?_append, hf]; rfl

/-- After a successful `addSearchable` whose base store already binds
the primary, both the primary and the searchable reference strings are
bound to the digest. -/
theorem addSearchable_lookup {st st' : List Record} {dig : Digest} {p s : Reference}
    (h : imageStore.addSearchable st dig p s = .ok st')
    (hp : imageStore.lookupRef st p.toString = some dig) :
    imageStore.lookupRef st' p.toString = some dig ∧
    imageStore.lookupRef st' s.toString = some dig := by
  unfold imageStore.addSearchable at h
  by_cases heq : p.toString = s.toString
  · rw [if_pos heq] at h
    cases h
    exact ⟨hp, heq ▸ hp⟩
  · rw [if_neg heq] at h
    cases hl : imageStore.lookupRef st s.toString with
    | some d =>
      rw [hl] at h
      dsimp only at h
      by_cases hd : d = dig
      · rw [if_pos hd] at h
        cases h
        exact ⟨hp, hd ▸ hl⟩
      · rw [if_neg hd] at h
        cases h
    | none =>
      rw [hl] at h
      dsimp only at h
      cases h
      constructor
      · exact lookupRef_append_some _ hp
      · rw [lookupRef_append_none _ hl]
        unfold imageStore.lookupRef
        rw [List.find?_cons_of_pos _ (by simp)]
        rfl

/-- After a successful `AddReference`, both the primary and the
searchable reference strings are bound to the digest. -/
theorem AddReference_lookup {store st' : List Record} {dig : Digest} {p s : Reference}
    (h : imageStore.AddReference store dig p s = .ok st') :
    imageStore.lookupRef st' p.toString = some dig ∧
    imageStore.lookupRef st' s.toString = some dig := by
  unfold imageStore.AddReference at h
  cases hl : imageStore.lookupRef store p.toString with
  | some d =>
    rw [hl] at h
    dsimp only at h
    by_cases hd : d = dig
    · rw [if_pos hd] at h
      exact addSearchable_lookup h (hd ▸ hl)
    · rw [if_neg hd] at h
      cases h
  | none =>
    rw [hl] at h
    dsimp only at h
    have hp : imageStore.lookupRef (store ++ [⟨dig, p, .primary, p.toString⟩])
        p.toString = some dig := by
      rw [lookupRef_append_none _ hl]
      unfold imageStore.lookupRef
      rw [List.find?_cons_of_pos _ (by simp)]
      rfl
    exact addSearchable_lookup h hp

/-- `addSearchable` preserves existing reference bindings. -/
theorem addSearchable_mono {st st' : List Record} {dig : Digest} {p s : Reference}
    (h : imageStore.addSearchable st dig p s = .ok st') {str : String} {d : Digest}
    (hl : imageStore.lookupRef st str = some d) :
    imageStore.lookupRef st' str = some d := by
  unfold imageStore.addSearchable at h
  by_cases heq : p.toString = s.toString
  · rw [if_pos heq] at h
    cases h
    exact hl
  · rw [if_neg heq] at h
    cases hls : imageStore.lookupRef st s.toString with
    | some d2 =>
      rw [hls] at h
      dsimp only at h
      by_cases hd : d2 = dig
      · rw [if_pos hd] at h
        cases h
        exact hl
      · rw [if_neg hd] at h
        cases h
    | none =>
      rw [hls] at h
      dsimp only at h
      cases h
      exact lookupRef_append_some _ hl

/-- `AddReference` preserves existing reference bindings. -/
theorem AddReference_mono {store st' : List Record} {dig : Digest} {p s : Reference}
    (h : imageStore.AddReference store dig p s = .ok st') {str : String} {d : Digest}
    (hl : imageStore.lookupRef store str = some d) :
    imageStore.lookupRef st' str = some d := by
  unfold imageStore.AddReference at h
  cases hlp : imageStore.lookupRef store p.toString with
  | some d2 =>
    rw [hlp] at h
    dsimp only at h
    by_cases hd : d2 = dig
    · rw [if_pos hd] at h
      exact addSearchable_mono h hl
    · rw [if_neg hd] at h
      cases h
  | none =>
    rw [hlp] at h
    dsimp only at h
    exact addSearchable_mono h (lookupRef_append_some _ hl)

/-- Registering a reference as its own searchable form on a store that
already binds it to the same digest is a no-op. -/
theorem AddReference_self_noop {store : List Record} {dig : Digest} {p : Reference}
    (h : imageStore.lookupRef store p.toString = some dig) :
    imageStore.AddReference store dig p p = .ok store := by
  unfold imageStore.AddReference
  rw [h]
  dsimp only
  rw [if_pos rfl]
  unfold imageStore.addSearchable
  rw [if_pos rfl]

/-- A reference whose string is bound in the store is found by
`Search`. -/
theorem Search_of_lookup {st : List Record} {q : Reference} {d : Digest}
    (h : imageStore.lookupRef st q.toString = some d) :
    imageStore.Search st q = .ok (d, q) := by
  unfold imageStore.lookupRef at h
  unfold imageStore.Search
  cases hf : st.find? (fun r => decide (r.ref.toString = q.toString)) with
  | none => rw [hf] at h; simp at h
  | some r =>
    rw [hf] at h
    simp at h
    dsimp only
    rw [h]

/-- C8: for an image whose canonical name is tagged, the
digest-qualified alias is registered exactly when a store search for
that name fails with NotFound, and skipped when the search succeeds;
consequently a second registration of the same image is a no-op that
raises no conflict (idempotence). -/
theorem storeImageReference_alias_guard_idempotent (store : List Record)
    (img : CtrdImage) (n : Reference) (store1 : List Record)
    (hparse : Parse img.name = .ok n)
    (htag : n.IsNameTagged = true)
    (hAdd : imageStore.AddReference store img.configDigest n n = .ok store1) :
    (imageStore.Search store1 (n.WithDigest img.targetDigest) = .error .notFound →
      storeImageReference store img =
        imageStore.AddReference store1 img.configDigest n
          (n.WithDigest img.targetDigest)) ∧
    (∀ d mr, imageStore.Search store1 (n.WithDigest img.targetDigest) = .ok (d, mr) →
      storeImageReference store img = .ok store1) ∧
    (∀ s1, storeImageReference store img = .ok s1 →
      storeImageReference s1 img = .ok s1) := by
  refine ⟨?_, ?_, ?_⟩
  · intro hs
    simp [storeImageReference, hparse, hAdd, htag, hs]
  · intro d mr hs
    simp [storeImageReference, hparse, hAdd, htag, hs]
  · intro s1 h
    simp only [storeImageReference, hparse, hAdd, htag, if_true] at h
    cases hs : imageStore.Search store1 (n.WithDigest img.targetDigest) with
    | ok dr =>
      rw [hs] at h
      dsimp only at h
      cases h
      have hlp : imageStore.lookupRef store1 n.toString = some img.configDigest :=
        (AddReference_lookup hAdd).1
      have hAdd2 := AddReference_self_noop hlp
      simp [storeImageReference, hparse, hAdd2, htag, hs]
    | error e =>
      rw [hs] at h
      dsimp only at h
      by_cases he : e = ImgErr.notFound
      · rw [if_pos he] at h
        have hl := AddReference_lookup h
        have hAdd2 := AddReference_self_noop hl.1
        have hs2 := Search_of_lookup hl.2
        simp [storeImageReference, hparse, hAdd2, htag, hs2]
      · rw [if_neg he] at h
        cases h
        have hlp : imageStore.lookupRef store1 n.toString = some img.configDigest :=
          (AddReference_lookup hAdd).1
        have hAdd2 := AddReference_self_noop hlp
        simp [storeImageReference, hparse, hAdd2, htag, hs, he]

/-- Witness for C8 at the spec's scenario: pulling `busybox:1.25` into
an empty store registers the tag plus the digest alias; registering the
same image again is a no-op with no conflict. -/
theorem storeImageReference_alias_guard_idempotent_witness :
    Parse imgBusybox.name = .ok (.tagged "busybox" "1.25") ∧
    imageStore.AddReference [] imgBusybox.configDigest (.tagged "busybox" "1.25")
        (.tagged "busybox" "1.25") = .ok storeOnePrimary ∧
    imageStore.Search storeOnePrimary
        (Reference.WithDigest (.tagged "busybox" "1.25") imgBusybox.targetDigest)
      = .error .notFound ∧
    storeImageReference [] imgBusybox = .ok storeWithAlias ∧
    storeImageReference storeWithAlias imgBusybox = .ok storeWithAlias :=
  have h := storeImageReference_alias_guard_idempotent [] imgBusybox
    (.tagged "busybox" "1.25") storeOnePrimary rfl rfl rfl
  ⟨rfl, rfl, rfl, rfl, h.2.2 storeWithAlias rfl⟩
